import Mathlib

/-!
# Verification of the `viz` restaurant-dashboard selection and geocoding logic

Shallow embedding of `src/viz/__main__.py`:

* `InspectionRecord` models one row of the DOHMH inspection table
  (the columns `get_top_N`, `create_full_address` and `get_lat_lon` touch).
* `get_top_N` models the Python function of the same name: filter rows with
  grade `A` or `B` and the requested cuisine, sort by grade date descending,
  `drop_duplicates(subset=['CAMIS'], keep='first')`, sort ascending by score
  and keep the first `N` rows.  The pandas `sort_values` calls use the
  default `kind='quicksort'`, which pandas documents as not stable: all the
  program guarantees of a sort step is some key-sorted permutation of its
  input (`IsSortValuesOutcome`).  The executable embedding fixes the
  unspecified tie order to input order (`List.insertionSort`, a stable sort,
  one admissible outcome — see `insertionSort_isSortValuesOutcome`); the
  properties proved below are tie-order invariant except where a theorem
  says otherwise, and the tie-dependent dedup behaviour is settled against
  `IsSortValuesOutcome` directly.
* `get_lat_lon` models the Python function of the same name; the external
  `gmaps.geocode` client is passed in as a function from the query address
  to the service's ranked list of matches, and the nested
  `.get('geometry', {}).get('location', {}).get('lat')` chain is modelled by
  `matchLat` / `matchLng` over `Option`-valued fields.
-/

namespace Viz

/-- One row of the inspection table: the columns used by the program.
`gradeDate` and `score` are the numeric timestamp and inspection score. -/
structure InspectionRecord where
  camis : Nat
  dba : String
  building : String
  street : String
  boro : String
  zipcode : Int
  cuisineDescription : String
  grade : String
  gradeDate : Int
  score : Int
deriving DecidableEq, Repr

/-- The row filter on line 84-85:
`((restos.GRADE == 'A') | (restos.GRADE == 'B')) & (restos['CUISINE DESCRIPTION'] == cuisine_type)`. -/
def qualifies (cuisine_type : String) (r : InspectionRecord) : Bool :=
  (r.grade == "A" || r.grade == "B") && (r.cuisineDescription == cuisine_type)

/-- `restos.loc[...]` with the grade/cuisine mask: the qualifying rows in input order. -/
def filteredRecords (restos : List InspectionRecord) (cuisine_type : String) :
    List InspectionRecord :=
  restos.filter (qualifies cuisine_type)

/-- Sort key of `.sort_values(by='GRADE DATE', ascending=False)`:
`a` comes no later than `b` when `a`'s grade date is the larger one. -/
def dateDesc (a b : InspectionRecord) : Prop :=
  b.gradeDate ≤ a.gradeDate

instance : DecidableRel dateDesc :=
  fun a b => inferInstanceAs (Decidable (b.gradeDate ≤ a.gradeDate))

instance : IsTotal InspectionRecord dateDesc :=
  ⟨fun a b => le_total b.gradeDate a.gradeDate⟩

instance : IsTrans InspectionRecord dateDesc :=
  ⟨fun _ _ _ h1 h2 => le_trans h2 h1⟩

/-- Sort key of `.sort_values(by='SCORE', ascending=True)`. -/
def scoreAsc (a b : InspectionRecord) : Prop :=
  a.score ≤ b.score

instance : DecidableRel scoreAsc :=
  fun a b => inferInstanceAs (Decidable (a.score ≤ b.score))

instance : IsTotal InspectionRecord scoreAsc :=
  ⟨fun a b => le_total a.score b.score⟩

instance : IsTrans InspectionRecord scoreAsc :=
  ⟨fun _ _ _ h1 h2 => le_trans h1 h2⟩

/-- `.drop_duplicates(subset=['CAMIS'], keep='first')`: scan the rows in order and
keep a row exactly when its CAMIS has not appeared before (`seen` is the set of
CAMIS values already kept, `[]` at the top-level call). -/
def dropDuplicatesCamis (seen : List Nat) : List InspectionRecord → List InspectionRecord
  | [] => []
  | r :: rs =>
    if r.camis ∈ seen then dropDuplicatesCamis seen rs
    else r :: dropDuplicatesCamis (r.camis :: seen) rs

/-- The local variable `candidates` of `get_top_N` (lines 83-89): qualifying rows,
sorted by grade date descending, then deduplicated by CAMIS keeping the first
(most recent) row of each restaurant.  The source's `sort_values` uses pandas'
default unstable quicksort, so the order of rows with equal grade dates is
unspecified; this executable model fixes that tie order to input order (a
stable sort), which is one admissible outcome.  Facts that depend on the tie
order are proved against `IsSortValuesOutcome`, not against this choice. -/
def candidates (restos : List InspectionRecord) (cuisine_type : String) :
    List InspectionRecord :=
  dropDuplicatesCamis [] ((filteredRecords restos cuisine_type).insertionSort dateDesc)

/-- What `.sort_values(by=key, ascending=...)` with the default
`kind='quicksort'` guarantees of its output, and nothing more: some
permutation of the input that is pairwise sorted by the key.  The relative
order of rows whose keys tie is unspecified (quicksort is not stable). -/
def IsSortValuesOutcome (r : InspectionRecord → InspectionRecord → Prop)
    (l sorted : List InspectionRecord) : Prop :=
  List.Perm l sorted ∧ sorted.Pairwise r

/-- `get_top_N(restos, cuisine_type='Thai', N=10)` (lines 64-94): the deduplicated
candidates sorted ascending by score, truncated to the first `N` (`.iloc[:N]`). -/
def get_top_N (restos : List InspectionRecord) (cuisine_type : String := "Thai")
    (N : Nat := 10) : List InspectionRecord :=
  ((candidates restos cuisine_type).insertionSort scoreAsc).take N

/-! ## The geocoder (`create_full_address`, `get_lat_lon`) -/

/-- The `location` dict of a geocode match: both coordinate fields may be absent
(`dict.get` returns `None`). -/
structure GeoLocation where
  lat : Option Rat
  lng : Option Rat
deriving DecidableEq, Repr

/-- The `geometry` dict of a geocode match. -/
structure GeoGeometry where
  location : Option GeoLocation
deriving DecidableEq, Repr

/-- One match of the geocoding service's ranked result list. -/
structure GeoMatch where
  geometry : Option GeoGeometry
deriving DecidableEq, Repr

/-- A value the `lat`/`lon` entries of the returned dict can hold: a number from
the service, Python `None` (a missing nested field), or `np.nan` (the no-match
sentinel of the `else` branch). -/
inductive CoordVal where
  | num (q : Rat)
  | null
  | nan
deriving DecidableEq, Repr

/-- The dict `get_lat_lon` returns: restaurant name and the two coordinates. -/
structure GeoPoint where
  name : String
  lat : CoordVal
  lon : CoordVal
deriving DecidableEq, Repr

/-- `create_full_address` (lines 97-113):
`f"{BUILDING} {STREET}, {BORO} {int(ZIPCODE)}"` (the zip code held as an integer). -/
def create_full_address (resto : InspectionRecord) : String :=
  resto.building ++ " " ++ resto.street ++ ", " ++ resto.boro ++ " "
    ++ toString resto.zipcode

/-- `results[0].get('geometry', {}).get('location', {}).get('lat')` (line 134). -/
def matchLat (m : GeoMatch) : Option Rat :=
  ((m.geometry.getD ⟨Option.none⟩).location.getD ⟨Option.none, Option.none⟩).lat

/-- `results[0].get('geometry', {}).get('location', {}).get('lng')` (line 135). -/
def matchLng (m : GeoMatch) : Option Rat :=
  ((m.geometry.getD ⟨Option.none⟩).location.getD ⟨Option.none, Option.none⟩).lng

/-- A nested lookup result as stored in the returned dict: a number, or `None`. -/
def toCoordVal : Option Rat → CoordVal
  | Option.some q => CoordVal.num q
  | Option.none => CoordVal.null

/-- `get_lat_lon` (lines 116-144).  The external geocoding client is the
parameter `geocode`; the Python code branches on `len(results) > 0`. -/
def get_lat_lon (geocode : String → List GeoMatch) (resto : InspectionRecord) : GeoPoint :=
  match geocode (create_full_address resto) with
  | m :: _ =>
    { name := resto.dba, lat := toCoordVal (matchLat m), lon := toCoordVal (matchLng m) }
  | [] =>
    { name := resto.dba, lat := CoordVal.nan, lon := CoordVal.nan }

/-! ## The three-record scenario of the spec (§8) -/

/-- Scenario row 1: id 1, Thai, grade A, score 5, date 2023-01-01. -/
def rec1 : InspectionRecord :=
  { camis := 1, dba := "R1", building := "10", street := "MAIN ST", boro := "QUEENS",
    zipcode := 11101, cuisineDescription := "Thai", grade := "A",
    gradeDate := 20230101, score := 5 }

/-- Scenario row 2: id 1, Thai, grade B, score 9, date 2023-02-01. -/
def rec2 : InspectionRecord :=
  { camis := 1, dba := "R1", building := "10", street := "MAIN ST", boro := "QUEENS",
    zipcode := 11101, cuisineDescription := "Thai", grade := "B",
    gradeDate := 20230201, score := 9 }

/-- Scenario row 3: id 2, Thai, grade C, score 2, date 2023-01-01. -/
def rec3 : InspectionRecord :=
  { camis := 2, dba := "R2", building := "22", street := "SIDE ST", boro := "BRONX",
    zipcode := 10453, cuisineDescription := "Thai", grade := "C",
    gradeDate := 20230101, score := 2 }



/-- The membership predicate C2 is stated through: same CAMIS and same grade
date as `x`. -/
def sameCamisDate (x y : InspectionRecord) : Bool :=
  y.camis == x.camis && y.gradeDate == x.gradeDate

/-- Tie row kept: id 7, grade A, score 4, date 2023-03-01, first in input order. -/
def tieA : InspectionRecord :=
  { camis := 7, dba := "T", building := "1", street := "A ST", boro := "QUEENS",
    zipcode := 11101, cuisineDescription := "Thai", grade := "A",
    gradeDate := 20230301, score := 4 }

/-- Tie row dropped: same id 7 and same grade date as `tieA`, but second in input
order (and a different score). -/
def tieB : InspectionRecord :=
  { camis := 7, dba := "T", building := "1", street := "A ST", boro := "QUEENS",
    zipcode := 11101, cuisineDescription := "Thai", grade := "A",
    gradeDate := 20230301, score := 8 }

/-- A complete geocode match at (40, -73). -/
def sampleMatch : GeoMatch :=
  { geometry := Option.some
      { location := Option.some { lat := Option.some 40, lng := Option.some (-73) } } }

/-- A match whose geometry dict is missing entirely. -/
def emptyMatch : GeoMatch := { geometry := Option.none }

theorem mem_of_mem_dropDuplicatesCamis {x : InspectionRecord} :
    ∀ {seen : List Nat} {l : List InspectionRecord},
      x ∈ dropDuplicatesCamis seen l → x ∈ l := by
  intro seen l
  induction l generalizing seen with
  | nil => intro h; simp [dropDuplicatesCamis] at h
  | cons r rs ih =>
    intro h
    rw [dropDuplicatesCamis] at h
    by_cases hc : r.camis ∈ seen
    · rw [if_pos hc] at h
      exact List.mem_cons_of_mem _ (ih h)
    · rw [if_neg hc] at h
      rcases List.mem_cons.mp h with he | hm
      · exact he ▸ List.mem_cons_self _ _
      · exact List.mem_cons_of_mem _ (ih hm)

theorem camis_not_seen_of_mem_dropDuplicatesCamis {x : InspectionRecord} :
    ∀ {seen : List Nat} {l : List InspectionRecord},
      x ∈ dropDuplicatesCamis seen l → x.camis ∉ seen := by
  intro seen l
  induction l generalizing seen with
  | nil => intro h; simp [dropDuplicatesCamis] at h
  | cons r rs ih =>
    intro h
    rw [dropDuplicatesCamis] at h
    by_cases hc : r.camis ∈ seen
    · rw [if_pos hc] at h
      exact ih h
    · rw [if_neg hc] at h
      rcases List.mem_cons.mp h with he | hm
      · exact he ▸ hc
      · intro hs
        exact ih hm (List.mem_cons_of_mem _ hs)

theorem pairwise_camis_dropDuplicatesCamis :
    ∀ (seen : List Nat) (l : List InspectionRecord),
      (dropDuplicatesCamis seen l).Pairwise (fun a b => a.camis ≠ b.camis) := by
  intro seen l
  induction l generalizing seen with
  | nil => exact List.Pairwise.nil
  | cons r rs ih =>
    rw [dropDuplicatesCamis]
    by_cases hc : r.camis ∈ seen
    · rw [if_pos hc]; exact ih seen
    · rw [if_neg hc]
      refine List.pairwise_cons.mpr ⟨fun b hb => ?_, ih _⟩
      have := camis_not_seen_of_mem_dropDuplicatesCamis hb
      intro he
      exact this (he ▸ List.mem_cons_self _ _)

theorem gradeDate_max_of_mem_dropDuplicatesCamis {x y : InspectionRecord} :
    ∀ {seen : List Nat} {l : List InspectionRecord},
      l.Pairwise dateDesc → x ∈ dropDuplicatesCamis seen l → y ∈ l →
      y.camis = x.camis → y.gradeDate ≤ x.gradeDate := by
  intro seen l
  induction l generalizing seen with
  | nil => intro _ _ hy; simp at hy
  | cons r rs ih =>
    intro hs hx hy hcam
    rw [dropDuplicatesCamis] at hx
    rcases List.pairwise_cons.mp hs with ⟨hr, hs'⟩
    by_cases hc : r.camis ∈ seen
    · rw [if_pos hc] at hx
      have hxseen := camis_not_seen_of_mem_dropDuplicatesCamis hx
      rcases List.mem_cons.mp hy with he | hm
      · have hxr : x.camis = r.camis := hcam.symm.trans (congrArg InspectionRecord.camis he)
        rw [hxr] at hxseen
        exact absurd hc hxseen
      · exact ih hs' hx hm hcam
    · rw [if_neg hc] at hx
      rcases List.mem_cons.mp hx with hxr | hx'
      · subst hxr
        rcases List.mem_cons.mp hy with he | hm
        · exact le_of_eq (congrArg _ he)
        · exact hr y hm
      · have hxns := camis_not_seen_of_mem_dropDuplicatesCamis hx'
        have hxne : x.camis ≠ r.camis := fun he => hxns (he ▸ List.mem_cons_self _ _)
        rcases List.mem_cons.mp hy with he | hm
        · exact absurd (hcam.symm.trans (congrArg InspectionRecord.camis he)) hxne
        · exact ih hs' hx' hm hcam


theorem find?_sameCamisDate_of_mem_dropDuplicatesCamis {x : InspectionRecord} :
    ∀ {seen : List Nat} {l : List InspectionRecord},
      x ∈ dropDuplicatesCamis seen l → x.camis ∉ seen →
      l.find? (sameCamisDate x) = some x := by
  intro seen l
  induction l generalizing seen with
  | nil => intro h; simp [dropDuplicatesCamis] at h
  | cons r rs ih =>
    intro hx hseen
    rw [dropDuplicatesCamis] at hx
    by_cases hc : r.camis ∈ seen
    · rw [if_pos hc] at hx
      have hne : r.camis ≠ x.camis := fun he => hseen (he ▸ hc)
      have hpr : sameCamisDate x r = false := by
        simp [sameCamisDate, hne]
      rw [List.find?_cons_of_neg _ (by simp [hpr]), ih hx hseen]
    · rw [if_neg hc] at hx
      rcases List.mem_cons.mp hx with he | hm
      · subst he
        rw [List.find?_cons_of_pos _ (by simp [sameCamisDate])]
      · have hxns := camis_not_seen_of_mem_dropDuplicatesCamis hm
        have hne : r.camis ≠ x.camis :=
          fun he => hxns (he ▸ List.mem_cons_self _ _)
        have hpr : sameCamisDate x r = false := by
          simp [sameCamisDate, hne]
        rw [List.find?_cons_of_neg _ (by simp [hpr])]
        exact ih hm hxns

theorem find?_eq_head?_filterList (p : InspectionRecord → Bool) :
    ∀ l : List InspectionRecord, l.find? p = (l.filter p).head? := by
  intro l
  induction l with
  | nil => rfl
  | cons a l ih =>
    by_cases h : p a
    · rw [List.find?_cons_of_pos _ h, List.filter_cons_of_pos h, List.head?_cons]
    · rw [List.find?_cons_of_neg _ (by simp [h]), List.filter_cons_of_neg (by simp [h]), ih]


/-- The executable model's stable sort is one admissible `sort_values` outcome. -/
theorem insertionSort_isSortValuesOutcome (l : List InspectionRecord) :
    IsSortValuesOutcome dateDesc l (l.insertionSort dateDesc) :=
  ⟨(List.perm_insertionSort dateDesc l).symm, List.sorted_insertionSort dateDesc l⟩

/-- C2 counterexample: the program does not guarantee first-occurrence-wins.
On the qualifying rows `[tieA, tieB]` (same CAMIS, same grade date),
`[tieB, tieA]` is an admissible outcome of the unstable date sort (a key-sorted
permutation, all that `sort_values(kind='quicksort')` promises), and
`drop_duplicates(keep='first')` over that outcome keeps `tieB`, although the
first qualifying occurrence for that CAMIS and date is the distinct row
`tieA`. -/
theorem sort_values_tie_order_not_guaranteed :
    IsSortValuesOutcome dateDesc (filteredRecords [tieA, tieB] "Thai") [tieB, tieA] ∧
    dropDuplicatesCamis [] [tieB, tieA] = [tieB] ∧
    (filteredRecords [tieA, tieB] "Thai").find? (sameCamisDate tieB) = some tieA ∧
    tieA ≠ tieB := by
  refine ⟨⟨?_, by decide⟩, by decide, by decide, by decide⟩
  have h : filteredRecords [tieA, tieB] "Thai" = [tieA, tieB] := by decide
  rw [h]
  exact List.Perm.swap tieB tieA []

/-- C2, amended: when the date sort resolves equal grade dates by input order
(a stable sort — one admissible outcome of pandas' unstable default quicksort,
and the tie policy the spec names), the deduplication keeps the first
occurrence: among the qualifying rows that share the CAMIS and the (tied,
maximal) grade date of a kept row `x`, the first one in input order is `x`
itself.  The program itself does not guarantee this tie-break
(`sort_values_tie_order_not_guaranteed`). -/
theorem get_top_N_tie_first_occurrence_wins
    (restos : List InspectionRecord) (cuisine_type : String) (x : InspectionRecord)
    (hx : x ∈ candidates restos cuisine_type) :
    (filteredRecords restos cuisine_type).find? (sameCamisDate x) = some x := by
  simp only [candidates] at hx
  have hsortfind : ((filteredRecords restos cuisine_type).insertionSort dateDesc).find?
      (sameCamisDate x) = some x :=
    find?_sameCamisDate_of_mem_dropDuplicatesCamis hx (by simp)
  have hdate : ∀ a ∈ (filteredRecords restos cuisine_type).filter (sameCamisDate x),
      a.gradeDate = x.gradeDate := by
    intro a ha
    have h2 := (List.mem_filter.mp ha).2
    simp only [sameCamisDate, Bool.and_eq_true, beq_iff_eq] at h2
    exact h2.2
  have hpw : ((filteredRecords restos cuisine_type).filter (sameCamisDate x)).Pairwise
      dateDesc := by
    apply List.pairwise_of_forall_mem_list
    intro a ha b hb
    show b.gradeDate ≤ a.gradeDate
    rw [hdate a ha, hdate b hb]
  have hsub : List.Sublist
      ((filteredRecords restos cuisine_type).filter (sameCamisDate x))
      ((filteredRecords restos cuisine_type).insertionSort dateDesc) :=
    List.sublist_insertionSort hpw (List.filter_sublist _)
  have hsub2 : List.Sublist
      ((filteredRecords restos cuisine_type).filter (sameCamisDate x))
      (((filteredRecords restos cuisine_type).insertionSort dateDesc).filter
        (sameCamisDate x)) := by
    have h1 := hsub.filter (sameCamisDate x)
    rwa [List.filter_eq_self.mpr (fun a ha => (List.mem_filter.mp ha).2)] at h1
  have hperm : List.Perm
      (((filteredRecords restos cuisine_type).insertionSort dateDesc).filter
        (sameCamisDate x))
      ((filteredRecords restos cuisine_type).filter (sameCamisDate x)) :=
    (List.perm_insertionSort dateDesc (filteredRecords restos cuisine_type)).filter _
  have heq : (filteredRecords restos cuisine_type).filter (sameCamisDate x) =
      ((filteredRecords restos cuisine_type).insertionSort dateDesc).filter
        (sameCamisDate x) :=
    hsub2.eq_of_length hperm.length_eq.symm
  rw [find?_eq_head?_filterList, heq, ← find?_eq_head?_filterList]
  exact hsortfind

/-- A row of the output came through the score sort and the truncation, so it is
one of the deduplicated candidates. -/
theorem mem_candidates_of_mem_get_top_N
    {restos : List InspectionRecord} {cuisine_type : String} {N : Nat}
    {x : InspectionRecord} (hx : x ∈ get_top_N restos cuisine_type N) :
    x ∈ candidates restos cuisine_type := by
  simp only [get_top_N] at hx
  have hx1 : x ∈ (candidates restos cuisine_type).insertionSort scoreAsc :=
    (List.take_sublist N _).subset hx
  exact (List.perm_insertionSort scoreAsc _).mem_iff.mp hx1

/-- A deduplicated candidate is one of the qualifying (post-filter) rows. -/
theorem mem_filtered_of_mem_candidates
    {restos : List InspectionRecord} {cuisine_type : String}
    {x : InspectionRecord} (hx : x ∈ candidates restos cuisine_type) :
    x ∈ filteredRecords restos cuisine_type := by
  simp only [candidates] at hx
  have hx1 : x ∈ (filteredRecords restos cuisine_type).insertionSort dateDesc :=
    mem_of_mem_dropDuplicatesCamis hx
  exact (List.perm_insertionSort dateDesc _).mem_iff.mp hx1

/-- C1: each CAMIS appears at most once in the output, every output row is a
qualifying row whose grade date is maximal among the qualifying rows of the same
restaurant, and the three-record scenario keeps exactly id 1's score-9 record. -/
theorem get_top_N_unique_camis_most_recent
    (restos : List InspectionRecord) (cuisine_type : String) (N : Nat) :
    (get_top_N restos cuisine_type N).Pairwise (fun a b => a.camis ≠ b.camis) ∧
    (∀ x ∈ get_top_N restos cuisine_type N,
      x ∈ filteredRecords restos cuisine_type ∧
      ∀ y ∈ filteredRecords restos cuisine_type,
        y.camis = x.camis → y.gradeDate ≤ x.gradeDate) ∧
    get_top_N [rec1, rec2, rec3] "Thai" 10 = [rec2] := by
  refine ⟨?_, ?_, by decide⟩
  · have h1 : (candidates restos cuisine_type).Pairwise (fun a b => a.camis ≠ b.camis) :=
      pairwise_camis_dropDuplicatesCamis _ _
    have h2 : ((candidates restos cuisine_type).insertionSort scoreAsc).Pairwise
        (fun a b => a.camis ≠ b.camis) :=
      ((List.perm_insertionSort scoreAsc _).pairwise_iff fun h => Ne.symm h).mpr h1
    simp only [get_top_N]
    exact List.Pairwise.sublist (List.take_sublist N _) h2
  · intro x hx
    have hx2 : x ∈ candidates restos cuisine_type := mem_candidates_of_mem_get_top_N hx
    have hx2s := hx2
    simp only [candidates] at hx2s
    refine ⟨mem_filtered_of_mem_candidates hx2, ?_⟩
    intro y hy hcam
    have hsorted : ((filteredRecords restos cuisine_type).insertionSort dateDesc).Pairwise
        dateDesc :=
      List.sorted_insertionSort dateDesc _
    exact gradeDate_max_of_mem_dropDuplicatesCamis hsorted hx2s
      ((List.perm_insertionSort dateDesc _).mem_iff.mpr hy) hcam

/-- C3: every output row has grade A or B and exactly the requested cuisine. -/
theorem get_top_N_grade_and_cuisine
    (restos : List InspectionRecord) (cuisine_type : String) (N : Nat)
    (x : InspectionRecord) (hx : x ∈ get_top_N restos cuisine_type N) :
    (x.grade = "A" ∨ x.grade = "B") ∧ x.cuisineDescription = cuisine_type := by
  have hfil := mem_filtered_of_mem_candidates (mem_candidates_of_mem_get_top_N hx)
  have hq := (List.mem_filter.mp hfil).2
  simp only [qualifies, Bool.and_eq_true, Bool.or_eq_true, beq_iff_eq] at hq
  exact hq

/-- C3 witness: the scenario output record has grade B and cuisine Thai. -/
theorem get_top_N_grade_and_cuisine_witness :
    (rec2.grade = "A" ∨ rec2.grade = "B") ∧ rec2.cuisineDescription = "Thai" :=
  get_top_N_grade_and_cuisine [rec1, rec2, rec3] "Thai" 10 rec2 (by decide)

/-- C4: the output is sorted ascending by inspection score. -/
theorem get_top_N_sorted_by_score
    (restos : List InspectionRecord) (cuisine_type : String) (N : Nat) :
    (get_top_N restos cuisine_type N).Pairwise (fun a b => a.score ≤ b.score) := by
  simp only [get_top_N]
  exact List.Pairwise.sublist (List.take_sublist N _)
    (List.sorted_insertionSort scoreAsc _)

/-- C5: the output holds min(N, number of deduplicated qualifying rows) records:
at most N, at most the qualifying count, empty when nothing qualifies, and N
defaults to 10. -/
theorem get_top_N_length
    (restos : List InspectionRecord) (cuisine_type : String) (N : Nat) :
    (get_top_N restos cuisine_type N).length =
      min N (candidates restos cuisine_type).length ∧
    (get_top_N restos cuisine_type N).length ≤ N ∧
    (get_top_N restos cuisine_type N).length ≤ (candidates restos cuisine_type).length ∧
    (candidates restos cuisine_type = [] → get_top_N restos cuisine_type N = []) ∧
    get_top_N restos cuisine_type = get_top_N restos cuisine_type 10 := by
  have hlen : (get_top_N restos cuisine_type N).length =
      min N (candidates restos cuisine_type).length := by
    simp only [get_top_N, List.length_take, List.length_insertionSort]
  refine ⟨hlen, ?_, ?_, ?_, rfl⟩
  · rw [hlen]; exact min_le_left _ _
  · rw [hlen]; exact min_le_right _ _
  · intro h
    simp only [get_top_N, h, List.insertionSort, List.take_nil]

/-- C6: `get_top_N` is a function of its arguments: two calls on identical
inputs return identical output (the embedding is pure, as is the Python body,
which only uses non-mutating pandas operations). -/
theorem get_top_N_deterministic
    (restos : List InspectionRecord) (cuisine_type : String) (N : Nat) :
    get_top_N restos cuisine_type N = get_top_N restos cuisine_type N := rfl

/-- C9: a cuisine matching no row yields the empty output, not an error. -/
theorem get_top_N_unknown_cuisine_empty
    (restos : List InspectionRecord) (cuisine_type : String) (N : Nat)
    (h : ∀ r ∈ restos, r.cuisineDescription ≠ cuisine_type) :
    get_top_N restos cuisine_type N = [] := by
  have hfil : filteredRecords restos cuisine_type = [] := by
    simp only [filteredRecords, List.filter_eq_nil_iff]
    intro a ha
    simp only [qualifies, Bool.and_eq_true, Bool.or_eq_true, beq_iff_eq]
    intro hq
    exact h a ha hq.2
  simp only [get_top_N, candidates, hfil, List.insertionSort, dropDuplicatesCamis,
    List.take_nil]

/-- C9 witness: no scenario record is a Pizza restaurant, so the output is empty. -/
theorem get_top_N_unknown_cuisine_empty_witness :
    get_top_N [rec1, rec2, rec3] "Pizza" 10 = [] :=
  get_top_N_unknown_cuisine_empty [rec1, rec2, rec3] "Pizza" 10 (by decide)

/-- C2 witness: with two qualifying same-id same-date rows, the kept row is the
first occurrence `tieA`. -/
theorem get_top_N_tie_first_occurrence_wins_witness :
    (filteredRecords [tieA, tieB] "Thai").find? (sameCamisDate tieA) = some tieA :=
  get_top_N_tie_first_occurrence_wins [tieA, tieB] "Thai" tieA (by decide)

/-- C7: a geocode lookup with zero matches returns the restaurant's name with the
`nan` no-match sentinel in both coordinates — a value distinct from every numeric
coordinate, in particular from 0 — instead of failing. -/
theorem get_lat_lon_no_match
    (geocode : String → List GeoMatch) (resto : InspectionRecord)
    (h : geocode (create_full_address resto) = []) :
    get_lat_lon geocode resto =
      { name := resto.dba, lat := CoordVal.nan, lon := CoordVal.nan } ∧
    ∀ q : Rat, CoordVal.nan ≠ CoordVal.num q := by
  constructor
  · simp only [get_lat_lon, h]
  · intro q hq
    cases hq

/-- C7 witness: the empty-result service on a concrete row. -/
theorem get_lat_lon_no_match_witness :
    get_lat_lon (fun _ => []) rec1 =
      { name := rec1.dba, lat := CoordVal.nan, lon := CoordVal.nan } ∧
    ∀ q : Rat, CoordVal.nan ≠ CoordVal.num q :=
  get_lat_lon_no_match (fun _ => []) rec1 rfl

/-- With at least one match, the returned dict is built from the first match. -/
theorem get_lat_lon_cons
    (geocode : String → List GeoMatch) (resto : InspectionRecord)
    (m : GeoMatch) (rest : List GeoMatch)
    (h : geocode (create_full_address resto) = m :: rest) :
    get_lat_lon geocode resto =
      { name := resto.dba, lat := toCoordVal (matchLat m),
        lon := toCoordVal (matchLng m) } := by
  simp only [get_lat_lon, h]

/-- C8: with one or more matches, the coordinates are read from the first match
of the service's ranked list, with no disambiguation. -/
theorem get_lat_lon_first_match
    (geocode : String → List GeoMatch) (resto : InspectionRecord)
    (m : GeoMatch) (rest : List GeoMatch)
    (h : geocode (create_full_address resto) = m :: rest) :
    get_lat_lon geocode resto =
      { name := resto.dba, lat := toCoordVal (matchLat m),
        lon := toCoordVal (matchLng m) } :=
  get_lat_lon_cons geocode resto m rest h

/-- C8 witness: a service answering with one complete match. -/
theorem get_lat_lon_first_match_witness :
    get_lat_lon (fun _ => [sampleMatch]) rec1 =
      { name := rec1.dba, lat := toCoordVal (matchLat sampleMatch),
        lon := toCoordVal (matchLng sampleMatch) } :=
  get_lat_lon_first_match (fun _ => [sampleMatch]) rec1 sampleMatch [] rfl

/-- C10: when the first match lacks the nested geometry/location/lat/lng fields,
`get_lat_lon` still returns (no exception): the name is kept and each missing
coordinate comes back as the Python-None value. -/
theorem get_lat_lon_missing_fields
    (geocode : String → List GeoMatch) (resto : InspectionRecord)
    (m : GeoMatch) (rest : List GeoMatch)
    (h : geocode (create_full_address resto) = m :: rest) :
    (get_lat_lon geocode resto).name = resto.dba ∧
    (matchLat m = Option.none → (get_lat_lon geocode resto).lat = CoordVal.null) ∧
    (matchLng m = Option.none → (get_lat_lon geocode resto).lon = CoordVal.null) := by
  rw [get_lat_lon_cons geocode resto m rest h]
  refine ⟨rfl, ?_, ?_⟩
  · intro hl
    rw [hl]
    rfl
  · intro hl
    rw [hl]
    rfl

/-- C10 witness: a service answering with one match that has no geometry. -/
theorem get_lat_lon_missing_fields_witness :
    (get_lat_lon (fun _ => [emptyMatch]) rec1).name = rec1.dba ∧
    (matchLat emptyMatch = Option.none →
      (get_lat_lon (fun _ => [emptyMatch]) rec1).lat = CoordVal.null) ∧
    (matchLng emptyMatch = Option.none →
      (get_lat_lon (fun _ => [emptyMatch]) rec1).lon = CoordVal.null) :=
  get_lat_lon_missing_fields (fun _ => [emptyMatch]) rec1 emptyMatch [] rfl

end Viz
